import Mathlib

/-!
Verification of the order-submission core of the TradingView → Gate.io
webhook service (`src/app/main.py`).

Python strings are modelled as `List Char`; Python `float` amounts and
prices, on which the core performs no arithmetic, are modelled as `Rat`;
the exchange client (`ccxt.gateio`) is modelled as a record of response
functions indexed by the attempt number, so that a single value describes
one "sequence of exchange responses" across the retry loop.  Every run
also produces a `RunLog` recording, in order, the exchange calls made,
the retry sleeps executed, and the number of loop iterations (attempts).
-/

namespace GateWebhook

/-- Python `str`, modelled as its list of characters. -/
abbrev PyStr := List Char

/-- A Python string literal. -/
def lit (s : String) : PyStr := s.data

/-- One character of Python `s.replace('_', '/')`. -/
def replUnderscore (c : Char) : Char := if c = '_' then '/' else c

/-- `normalize_symbol` from `src/app/main.py`: if the string contains `'/'`
it is returned unchanged, otherwise underscores are replaced by `'/'` and
the result is uppercased (`.replace('_', '/').upper()`). -/
def normalize_symbol (s : PyStr) : PyStr :=
  if '/' ∈ s then s
  else (s.map replUnderscore).map Char.toUpper

/-- Python `str.lower()` (basic-latin model). -/
def pyLower (s : PyStr) : PyStr := s.map Char.toLower

/-- Python `str.strip()`: drop whitespace from both ends. -/
def pyStrip (s : PyStr) : PyStr :=
  (((s.dropWhile Char.isWhitespace).reverse).dropWhile Char.isWhitespace).reverse

/- ### Character-level facts about `Char.toUpper` -/

theorem char_toNat_inj {a b : Char} (h : a.toNat = b.toNat) : a = b :=
  Char.ext (UInt32.toNat.inj h)

theorem toNat_ofNat_of_valid {n : Nat} (h : n.isValidChar) :
    (Char.ofNat n).toNat = n := by
  unfold Char.ofNat
  rw [dif_pos h]
  rfl

theorem toNat_toUpper (c : Char) :
    (Char.toUpper c).toNat =
      if 97 ≤ c.toNat ∧ c.toNat ≤ 122 then c.toNat - 32 else c.toNat := by
  unfold Char.toUpper
  split
  · next h =>
    rw [if_pos (by exact ⟨h.1, h.2⟩)]
    exact toNat_ofNat_of_valid (Or.inl (by omega))
  · next h =>
    rw [if_neg (by exact fun hc => h ⟨hc.1, hc.2⟩)]

theorem toUpper_eq_iff_slash (c : Char) : Char.toUpper c = '/' ↔ c = '/' := by
  constructor
  · intro h
    have h2 : (Char.toUpper c).toNat = 47 := by rw [h]; rfl
    rw [toNat_toUpper] at h2
    split at h2
    · omega
    · exact char_toNat_inj h2
  · intro h
    subst h
    rfl

theorem toUpper_eq_iff_underscore (c : Char) : Char.toUpper c = '_' ↔ c = '_' := by
  constructor
  · intro h
    have h2 : (Char.toUpper c).toNat = 95 := by rw [h]; rfl
    rw [toNat_toUpper] at h2
    split at h2
    · omega
    · exact char_toNat_inj h2
  · intro h
    subst h
    rfl

theorem toUpper_eq_self {c : Char} (h : ¬(97 ≤ c.toNat ∧ c.toNat ≤ 122)) :
    Char.toUpper c = c := by
  unfold Char.toUpper
  rw [if_neg (fun hc => h ⟨hc.1, hc.2⟩)]

theorem toUpper_toUpper (c : Char) :
    Char.toUpper (Char.toUpper c) = Char.toUpper c := by
  apply toUpper_eq_self
  rw [toNat_toUpper]
  split
  · next h => omega
  · next h => exact h

theorem replUnderscore_ne_underscore (c : Char) : replUnderscore c ≠ '_' := by
  unfold replUnderscore
  split
  · decide
  · next h => exact h

theorem normalize_symbol_of_mem {s : PyStr} (h : '/' ∈ s) :
    normalize_symbol s = s := by
  unfold normalize_symbol
  rw [if_pos h]

theorem normalize_symbol_of_not_mem {s : PyStr} (h : '/' ∉ s) :
    normalize_symbol s = (s.map replUnderscore).map Char.toUpper := by
  unfold normalize_symbol
  rw [if_neg h]

/-- C5: the Symbol Normalizer is total (it is a Lean function); every input
containing the separator `'/'` is returned unchanged; every input without
the separator maps to itself with each underscore replaced by `'/'` and the
result uppercased; and `"btc_usdt"` maps to `"BTC/USDT"`. -/
theorem C5_normalize_symbol_contract :
    (∀ s : PyStr, '/' ∈ s → normalize_symbol s = s) ∧
    (∀ s : PyStr, '/' ∉ s →
      normalize_symbol s = s.map (fun c => Char.toUpper (replUnderscore c))) ∧
    normalize_symbol (lit "btc_usdt") = lit "BTC/USDT" := by
  refine ⟨?_, ?_, ?_⟩
  · intro s h
    exact normalize_symbol_of_mem h
  · intro s h
    rw [normalize_symbol_of_not_mem h, List.map_map]
    rfl
  · decide

/-- Closed instances of `C5_normalize_symbol_contract`. -/
theorem C5_normalize_symbol_contract_witness :
    normalize_symbol (lit "BTC/USDT") = lit "BTC/USDT" ∧
    normalize_symbol (lit "eth_btc") = lit "ETH/BTC" := by
  constructor
  · exact C5_normalize_symbol_contract.1 (lit "BTC/USDT") (by decide)
  · rw [C5_normalize_symbol_contract.2.1 (lit "eth_btc") (by decide)]
    decide

/-- C8: the Symbol Normalizer is idempotent. -/
theorem C8_normalize_symbol_idempotent (s : PyStr) :
    normalize_symbol (normalize_symbol s) = normalize_symbol s := by
  by_cases h : '/' ∈ s
  · rw [normalize_symbol_of_mem h, normalize_symbol_of_mem h]
  · rw [normalize_symbol_of_not_mem h]
    by_cases hu : '_' ∈ s
    · have hmem : '/' ∈ (s.map replUnderscore).map Char.toUpper :=
        List.mem_map.mpr ⟨replUnderscore '_', List.mem_map.mpr ⟨'_', hu, rfl⟩, by decide⟩
      exact normalize_symbol_of_mem hmem
    · have hslash : '/' ∉ (s.map replUnderscore).map Char.toUpper := by
        intro hmem
        rcases List.mem_map.mp hmem with ⟨d, hd, hdeq⟩
        have hd2 : d = '/' := (toUpper_eq_iff_slash d).mp hdeq
        subst hd2
        rcases List.mem_map.mp hd with ⟨c, hc, hceq⟩
        unfold replUnderscore at hceq
        split at hceq
        · next hcu => exact hu (hcu ▸ hc)
        · exact h (hceq ▸ hc)
      have hund : '_' ∉ (s.map replUnderscore).map Char.toUpper := by
        intro hmem
        rcases List.mem_map.mp hmem with ⟨d, hd, hdeq⟩
        have hd2 : d = '_' := (toUpper_eq_iff_underscore d).mp hdeq
        subst hd2
        rcases List.mem_map.mp hd with ⟨c, _, hceq⟩
        exact replUnderscore_ne_underscore c hceq
      rw [normalize_symbol_of_not_mem hslash]
      have h1 : ((s.map replUnderscore).map Char.toUpper).map replUnderscore =
          (s.map replUnderscore).map Char.toUpper := by
        have hpt : ∀ c ∈ (s.map replUnderscore).map Char.toUpper,
            replUnderscore c = id c := by
          intro c hc
          unfold replUnderscore
          rw [if_neg (fun hceq : c = '_' => hund (hceq ▸ hc))]
          rfl
        rw [List.map_congr_left hpt, List.map_id]
      rw [h1, List.map_map]
      exact List.map_congr_left (fun c _ => toUpper_toUpper c)

/- ### The order submitter (`place_order_with_retry`) and its collaborator -/

/-- Python exceptions that can flow through the submitter.
`valueError` models the two `raise ValueError(...)` sites; `exchangeError`
models any exception raised by the ccxt exchange client; `keyError` models
`order['id']` on a dict without that key; `typeError` models `raise None`
(the `raise last_exception` line when the loop never ran).
`orderPlacementError` does not occur anywhere in `src/app/main.py`; it is
the wrapper exception named by the spec, present only so that the spec's
wrapping clause can be stated and compared against the code. -/
inductive Exc where
  | valueError (msg : String)
  | exchangeError (msg : String)
  | keyError (key : String)
  | typeError (msg : String)
  | orderPlacementError (cause : Exc)
deriving DecidableEq, Repr

instance instDecEqExcept {ε α : Type} [DecidableEq ε] [DecidableEq α] :
    DecidableEq (Except ε α)
  | .error e, .error f =>
    if h : e = f then .isTrue (congrArg Except.error h)
    else .isFalse fun hc => h (by injection hc)
  | .error _, .ok _ => .isFalse fun hc => Except.noConfusion hc
  | .ok _, .error _ => .isFalse fun hc => Except.noConfusion hc
  | .ok x, .ok y =>
    if h : x = y then .isTrue (congrArg Except.ok h)
    else .isFalse fun hc => h (by injection hc)

/-- The ccxt order dict, restricted to the keys the core reads
(`order.get('status')`, `order['id']`); `info` stands for the rest of the
payload so that distinct exchange responses can be told apart. -/
structure Order where
  id : Option String
  status : Option String
  info : String
deriving DecidableEq, Repr

/-- One call made against the exchange client, with its arguments. -/
inductive ECall where
  | loadMarkets
  | createMarketBuyOrder (symbol : PyStr) (amount : Rat)
  | createMarketSellOrder (symbol : PyStr) (amount : Rat)
  | createLimitBuyOrder (symbol : PyStr) (amount : Rat) (price : Rat)
  | createLimitSellOrder (symbol : PyStr) (amount : Rat) (price : Rat)
  | fetchOrder (id : String) (symbol : PyStr)
deriving DecidableEq, Repr

/-- The exchange collaborator: one response function per ccxt operation,
indexed by the attempt number, so a single `Exchange` value describes a
sequence of per-attempt responses (e.g. fail on attempts 1–2, succeed on
attempt 3). -/
structure Exchange where
  load_markets : Nat → Except Exc Unit
  create_market_buy_order : Nat → PyStr → Rat → Except Exc Order
  create_market_sell_order : Nat → PyStr → Rat → Except Exc Order
  create_limit_buy_order : Nat → PyStr → Rat → Rat → Except Exc Order
  create_limit_sell_order : Nat → PyStr → Rat → Rat → Except Exc Order
  fetch_order : Nat → String → PyStr → Except Exc Order

/-- The dispatch step of the `try` block on attempt `k`: the
`if order_type == 'market' ... elif ... else raise` ladder, returning the
placement outcome together with the order-placement calls it made. -/
def createOrder (ex : Exchange) (k : Nat) (symbol side : PyStr) (amount : Rat)
    (order_type : PyStr) (price : Option Rat) : Except Exc Order × List ECall :=
  if order_type = lit "market" then
    if side = lit "buy" then
      (ex.create_market_buy_order k symbol amount, [.createMarketBuyOrder symbol amount])
    else
      (ex.create_market_sell_order k symbol amount, [.createMarketSellOrder symbol amount])
  else if order_type = lit "limit" then
    match price with
    | none => (.error (.valueError "Missing price for limit order"), [])
    | some p =>
      if side = lit "buy" then
        (ex.create_limit_buy_order k symbol amount p, [.createLimitBuyOrder symbol amount p])
      else
        (ex.create_limit_sell_order k symbol amount p, [.createLimitSellOrder symbol amount p])
  else
    (.error (.valueError "Unsupported order type"), [])

/-- The whole `try` block of attempt `k`: `load_markets`, the dispatch
ladder, and the follow-up `fetch_order` when the returned status is
`'open'` or `'partial'`.  Returns the attempt's outcome and the exchange
calls made during the attempt, in order. -/
def attemptBody (ex : Exchange) (k : Nat) (symbol side : PyStr) (amount : Rat)
    (order_type : PyStr) (price : Option Rat) : Except Exc Order × List ECall :=
  match ex.load_markets k with
  | .error e => (.error e, [.loadMarkets])
  | .ok _ =>
    match createOrder ex k symbol side amount order_type price with
    | (.error e, cs) => (.error e, .loadMarkets :: cs)
    | (.ok order, cs) =>
      if order.status = some "open" ∨ order.status = some "partial" then
        match order.id with
        | none => (.error (.keyError "id"), .loadMarkets :: cs)
        | some oid =>
          (ex.fetch_order k oid symbol, .loadMarkets :: (cs ++ [.fetchOrder oid symbol]))
      else
        (.ok order, .loadMarkets :: cs)

/-- Observable record of one submitter run: every exchange call in order,
the `time.sleep` delays executed between attempts, and the number of loop
iterations (attempts) that ran. -/
structure RunLog where
  calls : List ECall
  sleeps : List Nat
  attempts : Nat
deriving DecidableEq, Repr

def RunLog.empty : RunLog := ⟨[], [], 0⟩

/-- The `for attempt in range(1, MAX_RETRIES + 1)` loop of
`place_order_with_retry`, over the list of remaining attempt numbers.
On failure the exception is recorded and, when `attempt < MAX_RETRIES`,
a `time.sleep(RETRY_DELAY)` runs before the next attempt; when the
attempt list is exhausted the last exception is re-raised (`raise None`
is a `TypeError` when no attempt ever ran). -/
def retryGo (ex : Exchange) (maxRetries retryDelay : Nat) (symbol side : PyStr)
    (amount : Rat) (order_type : PyStr) (price : Option Rat) :
    List Nat → Option Exc → RunLog → Except Exc Order × RunLog
  | [], last, log =>
    (match last with
     | some e => .error e
     | none => .error (.typeError "exceptions must derive from BaseException"), log)
  | k :: ks, _, log =>
    match attemptBody ex k symbol side amount order_type price with
    | (.ok o, cs) => (.ok o, ⟨log.calls ++ cs, log.sleeps, log.attempts + 1⟩)
    | (.error e, cs) =>
      retryGo ex maxRetries retryDelay symbol side amount order_type price ks (some e)
        ⟨log.calls ++ cs,
         log.sleeps ++ (if k < maxRetries then [retryDelay] else []),
         log.attempts + 1⟩

/-- `place_order_with_retry` from `src/app/main.py`, parameterised by the
exchange collaborator and the `MAX_RETRIES` / `RETRY_DELAY` configuration. -/
def place_order_with_retry (ex : Exchange) (maxRetries retryDelay : Nat)
    (symbol side : PyStr) (amount : Rat) (order_type : PyStr)
    (price : Option Rat) : Except Exc Order × RunLog :=
  retryGo ex maxRetries retryDelay symbol side amount order_type price
    (List.range' 1 maxRetries) none RunLog.empty

/- ### The webhook handler -/

/-- `str(e)` for the `f'Order placement failed: {e}'` detail string. -/
def describeExc : Exc → String
  | .valueError m => m
  | .exchangeError m => m
  | .keyError k => k
  | .typeError m => m
  | .orderPlacementError c => describeExc c

/-- The `TVPayload` pydantic model. -/
structure TVPayload where
  symbol : PyStr
  action : PyStr
  quantity : Rat
  order_type : PyStr := lit "market"
  price : Option Rat := none
  client_id : Option String := none

/-- The handler's HTTP outcome: the 200 JSON body, or an `HTTPException`
with its status code and detail. -/
inductive HResp where
  | ok (order_id : Option String) (raw : Order)
  | httpError (status : Nat) (detail : String)
deriving DecidableEq, Repr

/-- The handler's submit branch: run the submitter and map its outcome to
`200 {status:'ok', order_id, raw}` or `HTTPException(500, ...)`. -/
def submitAndRespond (ex : Exchange) (maxRetries retryDelay : Nat)
    (symbol side : PyStr) (p : TVPayload) : HResp × RunLog :=
  match place_order_with_retry ex maxRetries retryDelay symbol side
      p.quantity p.order_type p.price with
  | (.ok o, log) => (.ok o.id o, log)
  | (.error e, log) =>
    (.httpError 500 ("Order placement failed: " ++ describeExc e), log)

/-- The `POST /webhook` handler from `src/app/main.py`: normalize the
symbol, strip-and-lowercase the action, reject anything but `buy`/`sell`
with a 400, otherwise submit; the background logging/notification sinks
are outside the core and make no exchange calls. -/
def webhook (ex : Exchange) (maxRetries retryDelay : Nat) (p : TVPayload) :
    HResp × RunLog :=
  if pyLower (pyStrip p.action) = lit "buy" ∨ pyLower (pyStrip p.action) = lit "sell" then
    submitAndRespond ex maxRetries retryDelay (normalize_symbol p.symbol)
      (pyLower (pyStrip p.action)) p
  else
    (.httpError 400 "action must be BUY or SELL", RunLog.empty)

/- ### Loop lemmas for the retry machine -/

theorem mem_range'_one {m n : Nat} : m ∈ List.range' 1 n ↔ 1 ≤ m ∧ m ≤ n := by
  rw [List.mem_range']
  constructor
  · rintro ⟨i, hi, rfl⟩
    omega
  · intro h
    exact ⟨m - 1, by omega, by omega⟩

theorem range'_one_eq_concat {n : Nat} (h : 1 ≤ n) :
    List.range' 1 n = List.range' 1 (n - 1) ++ [n] := by
  conv_lhs => rw [show n = (n - 1) + 1 from by omega]
  rw [List.range'_concat]
  have h3 : 1 + 1 * (n - 1) = n := by omega
  rw [h3]

/-- A pair whose first component is a known `Except` value is that value
paired with its own second component. -/
theorem pair_eta {α β : Type} {p : α × β} {x : α} (h : p.1 = x) :
    p = (x, p.2) := by
  rw [← h]

/-- If every attempt in the list fails, the retry loop runs every attempt,
sleeps after each attempt numbered below `maxRetries`, accumulates every
attempt's calls, and ends with the error of the last attempt in the list. -/
theorem retryGo_all_fail (ex : Exchange) (N d : Nat) (sy sd : PyStr) (am : Rat)
    (ot : PyStr) (pr : Option Rat) :
    ∀ (l : List Nat), l ≠ [] →
      (∀ k ∈ l, ∃ e, (attemptBody ex k sy sd am ot pr).1 = .error e) →
      ∀ (last : Option Exc) (log : RunLog),
      ∃ klast e, l.getLast? = some klast ∧
        (attemptBody ex klast sy sd am ot pr).1 = .error e ∧
        retryGo ex N d sy sd am ot pr l last log =
          (.error e,
           ⟨log.calls ++ (l.map fun k => (attemptBody ex k sy sd am ot pr).2).flatten,
            log.sleeps ++ ((l.filter fun k => decide (k < N)).map fun _ => d),
            log.attempts + l.length⟩) := by
  intro l
  induction l with
  | nil => intro h; exact absurd rfl h
  | cons a t ih =>
    intro _ hall last log
    obtain ⟨ea, hea⟩ := hall a (List.mem_cons_self a t)
    have hab : attemptBody ex a sy sd am ot pr =
        (.error ea, (attemptBody ex a sy sd am ot pr).2) := pair_eta hea
    rcases t with _ | ⟨b, t2⟩
    · refine ⟨a, ea, rfl, hea, ?_⟩
      rw [retryGo, hab]
      show retryGo ex N d sy sd am ot pr [] (some ea) _ = _
      rw [retryGo]
      by_cases haN : a < N
      · simp [haN, RunLog.mk.injEq]
      · simp [haN, RunLog.mk.injEq]
    · obtain ⟨klast, e, hlast, he, heq⟩ :=
        ih (by simp) (fun k hk => hall k (List.mem_cons_of_mem a hk)) (some ea)
          ⟨log.calls ++ (attemptBody ex a sy sd am ot pr).2,
           log.sleeps ++ (if a < N then [d] else []),
           log.attempts + 1⟩
      refine ⟨klast, e, by rw [List.getLast?_cons_cons]; exact hlast, he, ?_⟩
      rw [retryGo, hab]
      show retryGo ex N d sy sd am ot pr (b :: t2) (some ea) _ = _
      rw [heq]
      by_cases haN : a < N
      · simp [haN, RunLog.mk.injEq, List.filter_cons]
        omega
      · simp [haN, RunLog.mk.injEq, List.filter_cons]
        omega

/- ### Computation lemmas for the dispatch ladder and a single attempt -/

theorem createOrder_market_buy (ex : Exchange) (k : Nat) (sy : PyStr) (am : Rat)
    (pr : Option Rat) :
    createOrder ex k sy (lit "buy") am (lit "market") pr =
      (ex.create_market_buy_order k sy am, [.createMarketBuyOrder sy am]) := by
  simp [createOrder]

theorem createOrder_market_sell (ex : Exchange) (k : Nat) (sy sd : PyStr)
    (am : Rat) (pr : Option Rat) (hsd : sd ≠ lit "buy") :
    createOrder ex k sy sd am (lit "market") pr =
      (ex.create_market_sell_order k sy am, [.createMarketSellOrder sy am]) := by
  simp [createOrder, hsd]

theorem createOrder_limit_buy (ex : Exchange) (k : Nat) (sy : PyStr) (am pp : Rat) :
    createOrder ex k sy (lit "buy") am (lit "limit") (some pp) =
      (ex.create_limit_buy_order k sy am pp, [.createLimitBuyOrder sy am pp]) := by
  have hml : lit "limit" ≠ lit "market" := by decide
  simp [createOrder, hml]

theorem createOrder_limit_sell (ex : Exchange) (k : Nat) (sy sd : PyStr)
    (am pp : Rat) (hsd : sd ≠ lit "buy") :
    createOrder ex k sy sd am (lit "limit") (some pp) =
      (ex.create_limit_sell_order k sy am pp, [.createLimitSellOrder sy am pp]) := by
  have hml : lit "limit" ≠ lit "market" := by decide
  simp [createOrder, hml, hsd]

theorem createOrder_limit_no_price (ex : Exchange) (k : Nat) (sy sd : PyStr)
    (am : Rat) :
    createOrder ex k sy sd am (lit "limit") none =
      (.error (.valueError "Missing price for limit order"), []) := by
  have hml : lit "limit" ≠ lit "market" := by decide
  simp [createOrder, hml]

theorem createOrder_unsupported (ex : Exchange) (k : Nat) (sy sd : PyStr)
    (am : Rat) (ot : PyStr) (pr : Option Rat)
    (hm : ot ≠ lit "market") (hli : ot ≠ lit "limit") :
    createOrder ex k sy sd am ot pr =
      (.error (.valueError "Unsupported order type"), []) := by
  simp [createOrder, hm, hli]

theorem attemptBody_of_createOrder_error (ex : Exchange) (k : Nat)
    (sy sd : PyStr) (am : Rat) (ot : PyStr) (pr : Option Rat) (e : Exc)
    (cs : List ECall) (hl : ex.load_markets k = .ok ())
    (hc : createOrder ex k sy sd am ot pr = (.error e, cs)) :
    attemptBody ex k sy sd am ot pr = (.error e, .loadMarkets :: cs) := by
  simp [attemptBody, hl, hc]

/-- When every attempt fails with the same exception and the same single
call trace, the submitter runs all `N` attempts, makes exactly those calls
`N` times, sleeps `N - 1` times, and re-raises that exception. -/
theorem place_order_uniform_failure (ex : Exchange) (N d : Nat) (sy sd : PyStr)
    (am : Rat) (ot : PyStr) (pr : Option Rat) (eu : Exc) (hN : 1 ≤ N)
    (hbody : ∀ k, 1 ≤ k → k ≤ N →
      attemptBody ex k sy sd am ot pr = (.error eu, [.loadMarkets])) :
    place_order_with_retry ex N d sy sd am ot pr =
      (.error eu,
       ⟨List.replicate N .loadMarkets, List.replicate (N - 1) d, N⟩) := by
  have hall : ∀ k ∈ List.range' 1 N, ∃ e,
      (attemptBody ex k sy sd am ot pr).1 = .error e := by
    intro k hk
    obtain ⟨h1, h2⟩ := mem_range'_one.mp hk
    exact ⟨eu, by rw [hbody k h1 h2]⟩
  have hne : List.range' 1 N ≠ [] := by
    simp only [ne_eq, List.range'_eq_nil]
    omega
  obtain ⟨klast, e, hlast, he, heq⟩ :=
    retryGo_all_fail ex N d sy sd am ot pr (List.range' 1 N) hne hall none RunLog.empty
  have hklast : klast = N := by
    rw [range'_one_eq_concat hN, List.getLast?_concat] at hlast
    have := hlast
    simpa using this.symm
  have he2 : (attemptBody ex N sy sd am ot pr).1 = Except.error e := by
    rw [← hklast]
    exact he
  have heu : eu = e := by
    rw [hbody N (by omega) (Nat.le_refl N)] at he2
    simpa using he2
  have hcalls :
      ((List.range' 1 N).map fun k => (attemptBody ex k sy sd am ot pr).2).flatten =
        List.replicate N ECall.loadMarkets := by
    have hmap : (List.range' 1 N).map (fun k => (attemptBody ex k sy sd am ot pr).2) =
        (List.range' 1 N).map fun _ => [ECall.loadMarkets] := by
      apply List.map_congr_left
      intro k hk
      obtain ⟨h1, h2⟩ := mem_range'_one.mp hk
      rw [hbody k h1 h2]
    rw [hmap, List.map_const', List.flatten_replicate_singleton, List.length_range']
  have hsleeps :
      (((List.range' 1 N).filter fun k => decide (k < N)).map fun _ => d) =
        List.replicate (N - 1) d := by
    have hfilter : ((List.range' 1 N).filter fun k => decide (k < N)) =
        List.range' 1 (N - 1) := by
      rw [range'_one_eq_concat hN, List.filter_append]
      have h1 : (List.range' 1 (N - 1)).filter (fun k => decide (k < N)) =
          List.range' 1 (N - 1) := by
        rw [List.filter_eq_self]
        intro a ha
        obtain ⟨ha1, ha2⟩ := mem_range'_one.mp ha
        exact decide_eq_true (by omega)
      have h2 : ([N].filter fun k => decide (k < N)) = [] := by
        simp
      rw [h1, h2, List.append_nil]
    rw [hfilter, List.map_const', List.length_range']
  rw [place_order_with_retry, heq, heu]
  rw [RunLog.empty]
  simp only [List.nil_append, Nat.zero_add, List.length_range']
  rw [hcalls, hsleeps]

/- ### Concrete collaborators for closed instances -/

/-- A terminal (`'closed'`) order response. -/
def okOrderClosed : Order := ⟨some "oid-1", some "closed", "filled"⟩

/-- An exchange that answers every call successfully with a closed order. -/
def exchangeHappy : Exchange where
  load_markets := fun _ => .ok ()
  create_market_buy_order := fun _ _ _ => .ok okOrderClosed
  create_market_sell_order := fun _ _ _ => .ok okOrderClosed
  create_limit_buy_order := fun _ _ _ _ => .ok okOrderClosed
  create_limit_sell_order := fun _ _ _ _ => .ok okOrderClosed
  fetch_order := fun _ _ _ => .ok okOrderClosed

/-- An exchange whose market-metadata refresh fails on every attempt, with
an attempt-numbered message. -/
def exchangeDown : Exchange where
  load_markets := fun k => .error (.exchangeError (if k = 1 then "boom1" else "boom2"))
  create_market_buy_order := fun _ _ _ => .ok okOrderClosed
  create_market_sell_order := fun _ _ _ => .ok okOrderClosed
  create_limit_buy_order := fun _ _ _ _ => .ok okOrderClosed
  create_limit_sell_order := fun _ _ _ _ => .ok okOrderClosed
  fetch_order := fun _ _ _ => .ok okOrderClosed

/-- An exchange that fails attempts 1 and 2 and succeeds from attempt 3 on. -/
def exchangeFlaky : Exchange where
  load_markets := fun k => if k ≤ 2 then .error (.exchangeError "rate limited") else .ok ()
  create_market_buy_order := fun _ _ _ => .ok okOrderClosed
  create_market_sell_order := fun _ _ _ => .ok okOrderClosed
  create_limit_buy_order := fun _ _ _ _ => .ok okOrderClosed
  create_limit_sell_order := fun _ _ _ _ => .ok okOrderClosed
  fetch_order := fun _ _ _ => .ok okOrderClosed

/- ### C1: unsupported order type -/

/-- C1 (amended): with `order_type` outside {market, limit} (and market
metadata loading succeeding on every attempt), the
`ValueError('Unsupported order type')` is raised inside the `try` block, so
it is caught and retried like any other failure: the submitter runs all
`MAX_RETRIES` attempts, each attempt calls `load_markets` against the
exchange, `MAX_RETRIES - 1` retry delays elapse, and the `ValueError` is
then re-raised; the webhook surfaces it as a 500 server error, not a 4xx. -/
theorem C1_unsupported_type_retried_and_500 (ex : Exchange) (N d : Nat)
    (sy sd : PyStr) (am : Rat) (ot : PyStr) (pr : Option Rat) (p : TVPayload)
    (hN : 1 ≤ N) (hl : ∀ k, ex.load_markets k = .ok ())
    (hm : ot ≠ lit "market") (hli : ot ≠ lit "limit") :
    place_order_with_retry ex N d sy sd am ot pr =
      (.error (.valueError "Unsupported order type"),
       ⟨List.replicate N .loadMarkets, List.replicate (N - 1) d, N⟩) ∧
    (p.order_type = ot → pyLower (pyStrip p.action) = lit "buy" →
      webhook ex N d p =
        (.httpError 500 "Order placement failed: Unsupported order type",
         ⟨List.replicate N .loadMarkets, List.replicate (N - 1) d, N⟩)) := by
  have hplace : ∀ (sy2 sd2 : PyStr) (am2 : Rat) (pr2 : Option Rat),
      place_order_with_retry ex N d sy2 sd2 am2 ot pr2 =
        (.error (.valueError "Unsupported order type"),
         ⟨List.replicate N .loadMarkets, List.replicate (N - 1) d, N⟩) := by
    intro sy2 sd2 am2 pr2
    apply place_order_uniform_failure ex N d sy2 sd2 am2 ot pr2 _ hN
    intro k _ _
    exact attemptBody_of_createOrder_error ex k sy2 sd2 am2 ot pr2 _ _ (hl k)
      (createOrder_unsupported ex k sy2 sd2 am2 ot pr2 hm hli)
  refine ⟨hplace sy sd am pr, ?_⟩
  intro hot hba
  rw [webhook, hba]
  rw [if_pos (Or.inl rfl)]
  rw [submitAndRespond, hot, hplace (normalize_symbol p.symbol) (lit "buy") p.quantity p.price]
  rfl

/-- C1 as stated is false at a concrete input: with `order_type='stop'` and
an always-healthy exchange, the submitter runs 3 attempts (not only the
first), two retry delays elapse (not zero), and the caller receives a 500
server error (not a 4xx). -/
theorem C1_counterexample :
    (webhook exchangeHappy 3 2 ⟨lit "BTC/USDT", lit "buy", 1, lit "stop", none, none⟩).2.attempts = 3 ∧
    (webhook exchangeHappy 3 2 ⟨lit "BTC/USDT", lit "buy", 1, lit "stop", none, none⟩).2.sleeps = [2, 2] ∧
    (webhook exchangeHappy 3 2 ⟨lit "BTC/USDT", lit "buy", 1, lit "stop", none, none⟩).1 =
      .httpError 500 "Order placement failed: Unsupported order type" := by
  decide

/-- Closed instance of `C1_unsupported_type_retried_and_500`. -/
theorem C1_unsupported_type_retried_and_500_witness :
    place_order_with_retry exchangeHappy 3 2 (lit "X") (lit "buy") 1 (lit "stop") none =
      (.error (.valueError "Unsupported order type"),
       ⟨List.replicate 3 .loadMarkets, List.replicate 2 2, 3⟩) ∧
    webhook exchangeHappy 3 2 ⟨lit "X/Y", lit "buy", 1, lit "stop", none, none⟩ =
      (.httpError 500 "Order placement failed: Unsupported order type",
       ⟨List.replicate 3 .loadMarkets, List.replicate 2 2, 3⟩) := by
  have h := C1_unsupported_type_retried_and_500 exchangeHappy 3 2 (lit "X") (lit "buy") 1
      (lit "stop") none ⟨lit "X/Y", lit "buy", 1, lit "stop", none, none⟩
      (by omega) (fun _ => rfl) (by decide) (by decide)
  exact ⟨h.1, h.2 rfl (by decide)⟩

/- ### C2: limit order with missing price -/

/-- C2 (amended): a limit order with `price=None` raises
`ValueError('Missing price for limit order')` inside the `try` block, so it
is retried, not immediate: every one of the `MAX_RETRIES` attempts makes a
`load_markets` call against the exchange collaborator, `MAX_RETRIES - 1`
retry delays elapse, and the `ValueError` is then re-raised.  What does
hold is that no order-placement call (`create_*_order`) is ever made. -/
theorem C2_missing_price_retried_no_placement_call (ex : Exchange) (N d : Nat)
    (sy sd : PyStr) (am : Rat) (hN : 1 ≤ N)
    (hl : ∀ k, ex.load_markets k = .ok ()) :
    place_order_with_retry ex N d sy sd am (lit "limit") none =
      (.error (.valueError "Missing price for limit order"),
       ⟨List.replicate N .loadMarkets, List.replicate (N - 1) d, N⟩) ∧
    ∀ c ∈ (place_order_with_retry ex N d sy sd am (lit "limit") none).2.calls,
      c = .loadMarkets := by
  have hplace : place_order_with_retry ex N d sy sd am (lit "limit") none =
      (.error (.valueError "Missing price for limit order"),
       ⟨List.replicate N .loadMarkets, List.replicate (N - 1) d, N⟩) := by
    apply place_order_uniform_failure ex N d sy sd am (lit "limit") none _ hN
    intro k _ _
    exact attemptBody_of_createOrder_error ex k sy sd am (lit "limit") none _ _ (hl k)
      (createOrder_limit_no_price ex k sy sd am)
  refine ⟨hplace, ?_⟩
  intro c hc
  rw [hplace] at hc
  exact (List.eq_of_mem_replicate hc)

/-- C2 as stated is false at a concrete input: with `order_type='limit'`
and `price=None`, 3 attempts run (not zero), each makes a `load_markets`
call against the exchange (3 calls, not zero), and 2 retry delays elapse. -/
theorem C2_counterexample :
    (place_order_with_retry exchangeHappy 3 2 (lit "BTC/USDT") (lit "buy") 1 (lit "limit") none).2.attempts = 3 ∧
    (place_order_with_retry exchangeHappy 3 2 (lit "BTC/USDT") (lit "buy") 1 (lit "limit") none).2.calls =
      [.loadMarkets, .loadMarkets, .loadMarkets] ∧
    (place_order_with_retry exchangeHappy 3 2 (lit "BTC/USDT") (lit "buy") 1 (lit "limit") none).2.sleeps = [2, 2] := by
  decide

/-- Closed instance of `C2_missing_price_retried_no_placement_call`. -/
theorem C2_missing_price_retried_no_placement_call_witness :
    place_order_with_retry exchangeHappy 2 5 (lit "ETH/USDT") (lit "sell") 1 (lit "limit") none =
      (.error (.valueError "Missing price for limit order"),
       ⟨List.replicate 2 .loadMarkets, List.replicate 1 5, 2⟩) := by
  exact (C2_missing_price_retried_no_placement_call exchangeHappy 2 5 (lit "ETH/USDT")
    (lit "sell") 1 (by omega) (fun _ => rfl)).1

/- ### C3: retry budget exhausted -/

/-- C3 (amended): for every sequence of exchange responses making every
attempt fail, and every `MAX_RETRIES = N ≥ 1`, the submitter makes exactly
`N` attempts and then fails with the exception seen on the final attempt,
re-raised as-is; the code defines no `OrderPlacementError` wrapper. -/
theorem C3_exhausted_retries_raise_last (ex : Exchange) (N d : Nat)
    (sy sd : PyStr) (am : Rat) (ot : PyStr) (pr : Option Rat) (hN : 1 ≤ N)
    (hfail : ∀ k, 1 ≤ k → k ≤ N →
      ∃ e, (attemptBody ex k sy sd am ot pr).1 = .error e) :
    ∃ e, (attemptBody ex N sy sd am ot pr).1 = .error e ∧
      (place_order_with_retry ex N d sy sd am ot pr).1 = .error e ∧
      (place_order_with_retry ex N d sy sd am ot pr).2.attempts = N := by
  have hall : ∀ k ∈ List.range' 1 N, ∃ e,
      (attemptBody ex k sy sd am ot pr).1 = .error e := by
    intro k hk
    obtain ⟨h1, h2⟩ := mem_range'_one.mp hk
    exact hfail k h1 h2
  have hne : List.range' 1 N ≠ [] := by
    simp only [ne_eq, List.range'_eq_nil]
    omega
  obtain ⟨klast, e, hlast, he, heq⟩ :=
    retryGo_all_fail ex N d sy sd am ot pr (List.range' 1 N) hne hall none RunLog.empty
  have hklast : klast = N := by
    rw [range'_one_eq_concat hN, List.getLast?_concat] at hlast
    have := hlast
    simpa using this.symm
  refine ⟨e, hklast ▸ he, ?_, ?_⟩
  · rw [place_order_with_retry, heq]
  · rw [place_order_with_retry, heq]
    simp [RunLog.empty]

/-- C3 as stated is false at a concrete input: after exhausting both
attempts the submitter raises the bare final exception, which differs from
the `OrderPlacementError`-wrapped value the claim requires. -/
theorem C3_counterexample :
    (place_order_with_retry exchangeDown 2 7 (lit "X") (lit "buy") 1 (lit "market") none).1 =
      .error (.exchangeError "boom2") ∧
    (place_order_with_retry exchangeDown 2 7 (lit "X") (lit "buy") 1 (lit "market") none).2.attempts = 2 ∧
    (Except.error (Exc.exchangeError "boom2") : Except Exc Order) ≠
      .error (.orderPlacementError (.exchangeError "boom2")) := by
  decide

/-- Closed instance of `C3_exhausted_retries_raise_last`. -/
theorem C3_exhausted_retries_raise_last_witness :
    (place_order_with_retry exchangeDown 2 7 (lit "X") (lit "buy") 1 (lit "market") none).2.attempts = 2 ∧
    (place_order_with_retry exchangeDown 2 7 (lit "X") (lit "buy") 1 (lit "market") none).1 =
      .error (.exchangeError "boom2") := by
  obtain ⟨e, he, hp, ha⟩ := C3_exhausted_retries_raise_last exchangeDown 2 7 (lit "X")
    (lit "buy") 1 (lit "market") none (by omega)
    (fun k h1 h2 => ⟨.exchangeError (if k = 1 then "boom1" else "boom2"), by
      simp [attemptBody, exchangeDown]⟩)
  refine ⟨ha, ?_⟩
  have he2 : e = .exchangeError "boom2" := by
    simp [attemptBody, exchangeDown] at he
    exact he.symm
  rw [hp, he2]

/- ### C4: fail, fail, succeed on the third attempt -/

/-- C4: with `MAX_RETRIES ≥ 3`, if attempts 1 and 2 fail and attempt 3
succeeds with order `o`, the submitter returns `o`, exactly two fixed
retry delays elapse (one after each failed attempt, none after the
success), and exactly 3 attempts run. -/
theorem C4_third_attempt_succeeds (ex : Exchange) (N d : Nat) (sy sd : PyStr)
    (am : Rat) (ot : PyStr) (pr : Option Rat) (o : Order) (cs3 : List ECall)
    (hN : 3 ≤ N)
    (h1 : ∃ e, (attemptBody ex 1 sy sd am ot pr).1 = .error e)
    (h2 : ∃ e, (attemptBody ex 2 sy sd am ot pr).1 = .error e)
    (h3 : attemptBody ex 3 sy sd am ot pr = (.ok o, cs3)) :
    (place_order_with_retry ex N d sy sd am ot pr).1 = .ok o ∧
    (place_order_with_retry ex N d sy sd am ot pr).2.sleeps = [d, d] ∧
    (place_order_with_retry ex N d sy sd am ot pr).2.attempts = 3 := by
  obtain ⟨e1, he1⟩ := h1
  obtain ⟨e2, he2⟩ := h2
  rcases hp1 : attemptBody ex 1 sy sd am ot pr with ⟨r1, cs1⟩
  rw [hp1] at he1
  have hr1 : r1 = Except.error e1 := he1
  subst hr1
  rcases hp2 : attemptBody ex 2 sy sd am ot pr with ⟨r2, cs2⟩
  rw [hp2] at he2
  have hr2 : r2 = Except.error e2 := he2
  subst hr2
  obtain ⟨M, hM⟩ : ∃ M, N = M + 3 := ⟨N - 3, by omega⟩
  subst hM
  have hrange : List.range' 1 (M + 3) = 1 :: 2 :: 3 :: List.range' 4 M := by
    rw [List.range'_succ, List.range'_succ, List.range'_succ]
  have hrun : place_order_with_retry ex (M + 3) d sy sd am ot pr =
      (.ok o, ⟨cs1 ++ (cs2 ++ cs3), [d, d], 3⟩) := by
    rw [place_order_with_retry, hrange]
    simp only [retryGo, hp1, hp2, h3]
    rw [if_pos (show (1 : Nat) < M + 3 by omega),
        if_pos (show (2 : Nat) < M + 3 by omega)]
    simp [RunLog.empty]
  rw [hrun]
  exact ⟨rfl, rfl, rfl⟩

/-- Closed instance of `C4_third_attempt_succeeds`: the flaky exchange
fails attempts 1 and 2 and fills a market buy on attempt 3. -/
theorem C4_third_attempt_succeeds_witness :
    (place_order_with_retry exchangeFlaky 3 2 (lit "BTC/USDT") (lit "buy") 1 (lit "market") none).1 =
      .ok okOrderClosed ∧
    (place_order_with_retry exchangeFlaky 3 2 (lit "BTC/USDT") (lit "buy") 1 (lit "market") none).2.sleeps = [2, 2] ∧
    (place_order_with_retry exchangeFlaky 3 2 (lit "BTC/USDT") (lit "buy") 1 (lit "market") none).2.attempts = 3 := by
  exact C4_third_attempt_succeeds exchangeFlaky 3 2 (lit "BTC/USDT") (lit "buy") 1
    (lit "market") none okOrderClosed
    [.loadMarkets, .createMarketBuyOrder (lit "BTC/USDT") 1]
    (by omega)
    ⟨.exchangeError "rate limited", by decide⟩
    ⟨.exchangeError "rate limited", by decide⟩
    (by decide)

/- ### C6: follow-up fetch on non-terminal status -/

/-- Is this exchange call a status fetch (`fetch_order`)? -/
def ECall.isFetch : ECall → Bool
  | .fetchOrder _ _ => true
  | _ => false

theorem createOrder_no_fetch (ex : Exchange) (k : Nat) (sy sd : PyStr)
    (am : Rat) (ot : PyStr) (pr : Option Rat) :
    (createOrder ex k sy sd am ot pr).2.countP ECall.isFetch = 0 := by
  unfold createOrder
  split
  · split <;> simp [ECall.isFetch]
  · split
    · split
      · simp
      · split <;> simp [ECall.isFetch]
    · simp

theorem attemptBody_fetch_branch (ex : Exchange) (k : Nat) (sy sd : PyStr)
    (am : Rat) (ot : PyStr) (pr : Option Rat) (o : Order) (cs : List ECall)
    (oid : String)
    (hl : ex.load_markets k = .ok ())
    (hc : createOrder ex k sy sd am ot pr = (.ok o, cs))
    (hst : o.status = some "open" ∨ o.status = some "partial")
    (hid : o.id = some oid) :
    attemptBody ex k sy sd am ot pr =
      (ex.fetch_order k oid sy, .loadMarkets :: (cs ++ [.fetchOrder oid sy])) := by
  simp only [attemptBody, hl, hc]
  rw [if_pos hst, hid]

theorem attemptBody_no_fetch_branch (ex : Exchange) (k : Nat) (sy sd : PyStr)
    (am : Rat) (ot : PyStr) (pr : Option Rat) (o : Order) (cs : List ECall)
    (hl : ex.load_markets k = .ok ())
    (hc : createOrder ex k sy sd am ot pr = (.ok o, cs))
    (hst : ¬(o.status = some "open" ∨ o.status = some "partial")) :
    attemptBody ex k sy sd am ot pr = (.ok o, .loadMarkets :: cs) := by
  simp only [attemptBody, hl, hc]
  rw [if_neg hst]

theorem retryGo_attempts_le (ex : Exchange) (N d : Nat) (sy sd : PyStr)
    (am : Rat) (ot : PyStr) (pr : Option Rat) :
    ∀ (l : List Nat) (last : Option Exc) (log : RunLog),
      log.attempts ≤ (retryGo ex N d sy sd am ot pr l last log).2.attempts := by
  intro l
  induction l with
  | nil =>
    intro last log
    simp [retryGo]
  | cons a t ih =>
    intro last log
    rcases hp : attemptBody ex a sy sd am ot pr with ⟨r, cs⟩
    rcases r with e | o2
    · simp only [retryGo, hp]
      exact Nat.le_trans (Nat.le_succ _)
        (ih (some e) ⟨log.calls ++ cs, log.sleeps ++ if a < N then [d] else [],
          log.attempts + 1⟩)
    · simp only [retryGo, hp]
      exact Nat.le_succ _

theorem retryGo_attempts_ge_one (ex : Exchange) (N d : Nat) (sy sd : PyStr)
    (am : Rat) (ot : PyStr) (pr : Option Rat) :
    ∀ (l : List Nat) (last : Option Exc) (log : RunLog), l ≠ [] →
      log.attempts + 1 ≤ (retryGo ex N d sy sd am ot pr l last log).2.attempts := by
  intro l last log hne
  rcases l with _ | ⟨a, t⟩
  · exact absurd rfl hne
  · rcases hp : attemptBody ex a sy sd am ot pr with ⟨r, cs⟩
    rcases r with e | o2
    · simp only [retryGo, hp]
      exact retryGo_attempts_le ex N d sy sd am ot pr t (some e)
        ⟨log.calls ++ cs, log.sleeps ++ if a < N then [d] else [], log.attempts + 1⟩
    · simp only [retryGo, hp]
      exact Nat.le_refl _

/-- C6: when an attempt's placement call returns an order whose status is
`open` or `partial`, exactly one follow-up `fetch_order` call is made and
the attempt's result is exactly the fetch outcome — so the fetch is not
retried on its own, and a fetch failure fails the whole attempt; when the
status is neither, no fetch call is made and the placed order is returned;
and an attempt failure (fetch failures included) triggers the attempt-level
retry: with budget `N ≥ 2`, a failing first attempt is followed by at least
a second one. -/
theorem C6_followup_fetch (ex : Exchange) (k N d : Nat) (sy sd : PyStr)
    (am : Rat) (ot : PyStr) (pr : Option Rat) (o : Order) (cs : List ECall)
    (oid : String)
    (hl : ex.load_markets k = .ok ())
    (hc : createOrder ex k sy sd am ot pr = (.ok o, cs)) :
    ((o.status = some "open" ∨ o.status = some "partial") → o.id = some oid →
      attemptBody ex k sy sd am ot pr =
        (ex.fetch_order k oid sy, .loadMarkets :: (cs ++ [.fetchOrder oid sy])) ∧
      (attemptBody ex k sy sd am ot pr).2.countP ECall.isFetch = 1) ∧
    (¬(o.status = some "open" ∨ o.status = some "partial") →
      attemptBody ex k sy sd am ot pr = (.ok o, .loadMarkets :: cs) ∧
      (attemptBody ex k sy sd am ot pr).2.countP ECall.isFetch = 0) ∧
    (2 ≤ N → ∀ e, (attemptBody ex 1 sy sd am ot pr).1 = .error e →
      2 ≤ (place_order_with_retry ex N d sy sd am ot pr).2.attempts) := by
  have hcs0 : cs.countP ECall.isFetch = 0 := by
    have h0 := createOrder_no_fetch ex k sy sd am ot pr
    rw [hc] at h0
    exact h0
  refine ⟨?_, ?_, ?_⟩
  · intro hst hid
    have hfetch := attemptBody_fetch_branch ex k sy sd am ot pr o cs oid hl hc hst hid
    refine ⟨hfetch, ?_⟩
    rw [hfetch]
    simp [List.countP_cons, List.countP_append, ECall.isFetch, hcs0]
  · intro hst
    have hplain := attemptBody_no_fetch_branch ex k sy sd am ot pr o cs hl hc hst
    refine ⟨hplain, ?_⟩
    rw [hplain]
    simp [List.countP_cons, ECall.isFetch, hcs0]
  · intro hN2 e he
    have hsplit : List.range' 1 N = 1 :: List.range' 2 (N - 1) := by
      conv_lhs => rw [show N = (N - 1) + 1 from by omega]
      rw [List.range'_succ]
    rw [place_order_with_retry, hsplit]
    rcases hp : attemptBody ex 1 sy sd am ot pr with ⟨r1, cs1⟩
    rw [hp] at he
    have hr : r1 = Except.error e := he
    subst hr
    simp only [retryGo, hp]
    have hne : List.range' 2 (N - 1) ≠ [] := by
      simp only [ne_eq, List.range'_eq_nil]
      omega
    exact retryGo_attempts_ge_one ex N d sy sd am ot pr
      (List.range' 2 (N - 1)) (some e)
      ⟨RunLog.empty.calls ++ cs1, RunLog.empty.sleeps ++ if 1 < N then [d] else [],
       RunLog.empty.attempts + 1⟩ hne

/-- An order stuck in `'open'` state and its fetched follow-up. -/
def openOrder : Order := ⟨some "oid-7", some "open", "first"⟩

def fetchedOrder : Order := ⟨some "oid-7", some "closed", "second"⟩

/-- An exchange whose placements come back `'open'` and whose status fetch
fails on attempt 1 and succeeds afterwards. -/
def exchangeFetchFails : Exchange where
  load_markets := fun _ => .ok ()
  create_market_buy_order := fun _ _ _ => .ok openOrder
  create_market_sell_order := fun _ _ _ => .ok openOrder
  create_limit_buy_order := fun _ _ _ _ => .ok openOrder
  create_limit_sell_order := fun _ _ _ _ => .ok openOrder
  fetch_order := fun k _ _ => if k = 1 then .error (.exchangeError "fetch down") else .ok fetchedOrder

/-- Closed instances of `C6_followup_fetch`: an `'open'` placement is
followed by exactly one fetch whose failure fails the attempt and triggers
a second attempt; a `'closed'` placement is returned without any fetch. -/
theorem C6_followup_fetch_witness :
    attemptBody exchangeFetchFails 1 (lit "B/U") (lit "buy") 1 (lit "market") none =
      (.error (.exchangeError "fetch down"),
       [.loadMarkets, .createMarketBuyOrder (lit "B/U") 1, .fetchOrder "oid-7" (lit "B/U")]) ∧
    (attemptBody exchangeFetchFails 1 (lit "B/U") (lit "buy") 1 (lit "market") none).2.countP ECall.isFetch = 1 ∧
    attemptBody exchangeHappy 1 (lit "B/U") (lit "buy") 1 (lit "market") none =
      (.ok okOrderClosed, [.loadMarkets, .createMarketBuyOrder (lit "B/U") 1]) ∧
    (attemptBody exchangeHappy 1 (lit "B/U") (lit "buy") 1 (lit "market") none).2.countP ECall.isFetch = 0 ∧
    2 ≤ (place_order_with_retry exchangeFetchFails 2 9 (lit "B/U") (lit "buy") 1 (lit "market") none).2.attempts := by
  have hA := C6_followup_fetch exchangeFetchFails 1 2 9 (lit "B/U") (lit "buy") 1
    (lit "market") none openOrder [.createMarketBuyOrder (lit "B/U") 1] "oid-7"
    rfl (by decide)
  have hB := C6_followup_fetch exchangeHappy 1 2 9 (lit "B/U") (lit "buy") 1
    (lit "market") none okOrderClosed [.createMarketBuyOrder (lit "B/U") 1] "oid-1"
    rfl (by decide)
  refine ⟨?_, ?_, ?_, ?_, ?_⟩
  · rw [(hA.1 (by decide) rfl).1]
    decide
  · exact (hA.1 (by decide) rfl).2
  · exact (hB.2.1 (by decide)).1
  · exact (hB.2.1 (by decide)).2
  · exact hA.2.2 (by omega) (.exchangeError "fetch down") (by decide)

/- ### C7: action validation and the four-way dispatch -/

/-- C7: the action string is stripped, lowercased and checked against
buy/sell: any other value yields `HTTPException(400, ...)` with an empty
run log — the submitter is never invoked, no exchange call is made and
nothing is retried; a value mapping case-insensitively to buy or sell
proceeds to submission with that side; and the dispatch ladder maps
`(order_type, side)` to the four exchange operations market-buy,
market-sell, limit-buy, limit-sell. -/
theorem C7_action_validation_and_dispatch :
    (∀ (ex : Exchange) (N d : Nat) (p : TVPayload),
      pyLower (pyStrip p.action) ≠ lit "buy" →
      pyLower (pyStrip p.action) ≠ lit "sell" →
      webhook ex N d p = (.httpError 400 "action must be BUY or SELL", RunLog.empty)) ∧
    (∀ (ex : Exchange) (N d : Nat) (p : TVPayload),
      pyLower (pyStrip p.action) = lit "buy" ∨ pyLower (pyStrip p.action) = lit "sell" →
      webhook ex N d p =
        submitAndRespond ex N d (normalize_symbol p.symbol) (pyLower (pyStrip p.action)) p) ∧
    (∀ (ex : Exchange) (k : Nat) (sy : PyStr) (am pp : Rat) (pr : Option Rat),
      createOrder ex k sy (lit "buy") am (lit "market") pr =
        (ex.create_market_buy_order k sy am, [.createMarketBuyOrder sy am]) ∧
      createOrder ex k sy (lit "sell") am (lit "market") pr =
        (ex.create_market_sell_order k sy am, [.createMarketSellOrder sy am]) ∧
      createOrder ex k sy (lit "buy") am (lit "limit") (some pp) =
        (ex.create_limit_buy_order k sy am pp, [.createLimitBuyOrder sy am pp]) ∧
      createOrder ex k sy (lit "sell") am (lit "limit") (some pp) =
        (ex.create_limit_sell_order k sy am pp, [.createLimitSellOrder sy am pp])) := by
  refine ⟨?_, ?_, ?_⟩
  · intro ex N d p h1 h2
    have hn : ¬(pyLower (pyStrip p.action) = lit "buy" ∨
        pyLower (pyStrip p.action) = lit "sell") := by
      rintro (h | h)
      · exact h1 h
      · exact h2 h
    rw [webhook, if_neg hn]
  · intro ex N d p h
    rw [webhook, if_pos h]
  · intro ex k sy am pp pr
    exact ⟨createOrder_market_buy ex k sy am pr,
      createOrder_market_sell ex k sy (lit "sell") am pr (by decide),
      createOrder_limit_buy ex k sy am pp,
      createOrder_limit_sell ex k sy (lit "sell") am pp (by decide)⟩

/-- Closed instances of `C7_action_validation_and_dispatch`. -/
theorem C7_action_validation_and_dispatch_witness :
    webhook exchangeHappy 3 2 ⟨lit "BTC/USDT", lit "hold", 1, lit "market", none, none⟩ =
      (.httpError 400 "action must be BUY or SELL", RunLog.empty) ∧
    webhook exchangeHappy 3 2 ⟨lit "BTC/USDT", lit "SELL", 1, lit "market", none, none⟩ =
      submitAndRespond exchangeHappy 3 2 (normalize_symbol (lit "BTC/USDT"))
        (pyLower (pyStrip (lit "SELL")))
        ⟨lit "BTC/USDT", lit "SELL", 1, lit "market", none, none⟩ ∧
    createOrder exchangeHappy 1 (lit "BTC/USDT") (lit "buy") 1 (lit "market") none =
      (exchangeHappy.create_market_buy_order 1 (lit "BTC/USDT") 1,
       [.createMarketBuyOrder (lit "BTC/USDT") 1]) := by
  refine ⟨?_, ?_, ?_⟩
  · exact C7_action_validation_and_dispatch.1 exchangeHappy 3 2 _ (by decide) (by decide)
  · exact C7_action_validation_and_dispatch.2.1 exchangeHappy 3 2 _ (Or.inr (by decide))
  · exact (C7_action_validation_and_dispatch.2.2 exchangeHappy 1 (lit "BTC/USDT") 1 1 none).1

/- ### C10: the submitter never validates `side` -/

/-- C10: the dispatch ladder checks only `side == 'buy'`; any other side
value (not just `'sell'`) routes a market order to the market-sell
operation and a priced limit order to the limit-sell operation. -/
theorem C10_non_buy_side_dispatches_sell (ex : Exchange) (k : Nat)
    (sy sd : PyStr) (am pp : Rat) (pr : Option Rat) (hsd : sd ≠ lit "buy") :
    createOrder ex k sy sd am (lit "market") pr =
      (ex.create_market_sell_order k sy am, [.createMarketSellOrder sy am]) ∧
    createOrder ex k sy sd am (lit "limit") (some pp) =
      (ex.create_limit_sell_order k sy am pp, [.createLimitSellOrder sy am pp]) :=
  ⟨createOrder_market_sell ex k sy sd am pr hsd,
   createOrder_limit_sell ex k sy sd am pp hsd⟩

/-- Closed instance of `C10_non_buy_side_dispatches_sell` at the arbitrary
side string `'hold'`. -/
theorem C10_non_buy_side_dispatches_sell_witness :
    createOrder exchangeHappy 1 (lit "X/Y") (lit "hold") 1 (lit "market") none =
      (exchangeHappy.create_market_sell_order 1 (lit "X/Y") 1,
       [.createMarketSellOrder (lit "X/Y") 1]) ∧
    createOrder exchangeHappy 1 (lit "X/Y") (lit "hold") 1 (lit "limit") (some 5) =
      (exchangeHappy.create_limit_sell_order 1 (lit "X/Y") 1 5,
       [.createLimitSellOrder (lit "X/Y") 1 5]) :=
  C10_non_buy_side_dispatches_sell exchangeHappy 1 (lit "X/Y") (lit "hold") 1 5 none
    (by decide)

/- ### C9: whitespace around the action is stripped before validation -/

theorem dropWhile_append_all {p : Char → Bool} :
    ∀ (l1 l2 : List Char), (∀ c ∈ l1, p c = true) →
      List.dropWhile p (l1 ++ l2) = List.dropWhile p l2 := by
  intro l1
  induction l1 with
  | nil =>
    intro l2 _
    rfl
  | cons a t ih =>
    intro l2 h
    rw [List.cons_append, List.dropWhile_cons_of_pos (h a (List.mem_cons_self a t))]
    exact ih l2 (fun c hc => h c (List.mem_cons_of_mem a hc))

theorem pyStrip_sandwich (ws1 core ws2 : PyStr) (ch cl : Char)
    (hw1 : ∀ c ∈ ws1, c.isWhitespace = true)
    (hw2 : ∀ c ∈ ws2, c.isWhitespace = true)
    (hh : core.head? = some ch) (hch : ch.isWhitespace = false)
    (hl2 : core.getLast? = some cl) (hcl : cl.isWhitespace = false) :
    pyStrip (ws1 ++ core ++ ws2) = core := by
  obtain ⟨rest, rfl⟩ : ∃ rest, core = ch :: rest := by
    rcases core with _ | ⟨a, t⟩
    · simp at hh
    · simp at hh
      exact ⟨t, by rw [hh]⟩
  unfold pyStrip
  rw [List.append_assoc, dropWhile_append_all ws1 _ hw1]
  rw [show List.dropWhile Char.isWhitespace ((ch :: rest) ++ ws2) = (ch :: rest) ++ ws2 from by
    rw [List.cons_append, List.dropWhile_cons_of_neg (by simp [hch])]]
  rw [List.reverse_append]
  rw [dropWhile_append_all ws2.reverse _ (fun c hc => hw2 c (List.mem_reverse.mp hc))]
  obtain ⟨r2, hr2⟩ : ∃ r2, (ch :: rest).reverse = cl :: r2 := by
    have hhead : (ch :: rest).reverse.head? = some cl := by
      rw [List.head?_reverse]
      exact hl2
    rcases hr : (ch :: rest).reverse with _ | ⟨b, t2⟩
    · rw [hr] at hhead
      simp at hhead
    · rw [hr] at hhead
      simp at hhead
      rw [hhead]
      exact ⟨t2, rfl⟩
  rw [hr2, List.dropWhile_cons_of_neg (by simp [hcl]), ← hr2, List.reverse_reverse]

theorem whitespace_toLower_eq_self {c : Char} (h : c.isWhitespace = true) :
    Char.toLower c = c := by
  simp [Char.isWhitespace] at h
  rcases h with ((h | h) | h) | h <;> subst h <;> decide

theorem ws_toLower_ne {c x : Char} (h : c.isWhitespace = true)
    (hx : x.isWhitespace = false) : Char.toLower c ≠ x := by
  rw [whitespace_toLower_eq_self h]
  intro he
  rw [he, hx] at h
  exact Bool.false_ne_true h

theorem action_strip_core (ws1 ws2 core w : PyStr) (cw lw : Char)
    (hw1 : ∀ c ∈ ws1, c.isWhitespace = true)
    (hw2 : ∀ c ∈ ws2, c.isWhitespace = true)
    (hcore : pyLower core = w)
    (hhw : w.head? = some cw) (hlw : w.getLast? = some lw)
    (hcw : ∀ c : Char, c.isWhitespace = true → Char.toLower c ≠ cw)
    (hlw2 : ∀ c : Char, c.isWhitespace = true → Char.toLower c ≠ lw) :
    pyStrip (ws1 ++ core ++ ws2) = core := by
  have hcore2 : List.map Char.toLower core = w := hcore
  have h1 : core.head?.map Char.toLower = some cw := by
    rw [← List.head?_map, hcore2]
    exact hhw
  obtain ⟨ch, hch, hch2⟩ := Option.map_eq_some'.mp h1
  have h2 : core.getLast?.map Char.toLower = some lw := by
    rw [← List.getLast?_map, hcore2]
    exact hlw
  obtain ⟨cl, hcl, hcl2⟩ := Option.map_eq_some'.mp h2
  have hchws : ch.isWhitespace = false := by
    cases hb : ch.isWhitespace
    · rfl
    · exact absurd hch2 (hcw ch hb)
  have hclws : cl.isWhitespace = false := by
    cases hb : cl.isWhitespace
    · rfl
    · exact absurd hcl2 (hlw2 cl hb)
  exact pyStrip_sandwich ws1 core ws2 ch cl hw1 hw2 hch hchws hcl hclws

/-- C9: the webhook strips leading and trailing whitespace from `action`
before validating it, so every whitespace-padded case variant of buy/sell
is accepted and dispatched with that side instead of being rejected with a
400 client error. -/
theorem C9_action_whitespace_stripped (ex : Exchange) (N d : Nat)
    (p : TVPayload) (ws1 ws2 core : PyStr)
    (hw1 : ∀ c ∈ ws1, c.isWhitespace = true)
    (hw2 : ∀ c ∈ ws2, c.isWhitespace = true)
    (hcore : pyLower core = lit "buy" ∨ pyLower core = lit "sell")
    (haction : p.action = ws1 ++ core ++ ws2) :
    webhook ex N d p =
      submitAndRespond ex N d (normalize_symbol p.symbol) (pyLower core) p := by
  have hstrip : pyStrip p.action = core := by
    rw [haction]
    rcases hcore with h | h
    · exact action_strip_core ws1 ws2 core (lit "buy") 'b' 'y' hw1 hw2 h rfl rfl
        (fun c hc => ws_toLower_ne hc (by decide))
        (fun c hc => ws_toLower_ne hc (by decide))
    · exact action_strip_core ws1 ws2 core (lit "sell") 's' 'l' hw1 hw2 h rfl rfl
        (fun c hc => ws_toLower_ne hc (by decide))
        (fun c hc => ws_toLower_ne hc (by decide))
  rw [webhook, hstrip, if_pos hcore]

/-- Closed instance of `C9_action_whitespace_stripped` at action `" BUY "`. -/
theorem C9_action_whitespace_stripped_witness :
    webhook exchangeHappy 3 2 ⟨lit "BTC/USDT", lit " BUY ", 1, lit "market", none, none⟩ =
      submitAndRespond exchangeHappy 3 2 (normalize_symbol (lit "BTC/USDT"))
        (pyLower (lit "BUY"))
        ⟨lit "BTC/USDT", lit " BUY ", 1, lit "market", none, none⟩ := by
  exact C9_action_whitespace_stripped exchangeHappy 3 2 _ [' '] [' '] (lit "BUY")
    (by decide) (by decide) (Or.inl (by decide)) (by decide)

end GateWebhook
